import Mathlib

set_option autoImplicit false

/-!
Shallow embedding of the LaunchCounter real-time sync core.

Sources embedded here:
- `backend/models/users.go`: `LaunchData`, `Client`, the global `Clients`
  map, and `Client.WritePump`.
- `backend/handlers/websocket.go`: `WebSocketHandler`, `registerClient`,
  `unregisterClient`.
- `backend/handlers/sync.go`: `GetSyncDataHandler`, `PostSyncDataHandler`,
  `broadcastToUser`.
- `frontend/lib/services/theme_service.dart` (SyncService):
  `initWebSocket` reconnect backoff state.

Modelling conventions: Go `map[int][]*Client` becomes an association list
from user id to the list of client ids, plus a heap mapping client ids to
client states (pointer identity becomes id equality).  The buffered
channel `Send` becomes a list plus a capacity and a closed flag; Go's
`close` of an already-closed channel panics, and a `select` send on a
closed channel panics, which the model records with explicit booleans.
Timestamps are abstract `Nat` values (`time.Time` zero value is `0`);
SQL `NULL` is `Option.none`.  The registry lock serializes register /
unregister / broadcast, so each operation is modelled as one atomic
state transformation.
-/

/-- Abstract timestamp; `0` models Go's `time.Time{}` zero value. -/
abbrev Time := Nat

/-- Models `models.LaunchData` (users.go): the full snapshot carried on the
wire and through the `Send` channels. Go maps become association lists. -/
structure LaunchData where
  version : Int
  userID : Int
  total : Int
  yearData : List (String × Int)
  monthData : List (String × Int)
  dayData : List (String × Int)
  lastLaunch : Time
deriving DecidableEq

/-- Models the mutable part of `models.Client` (users.go): the buffered
`Send` channel becomes `sendQueue` bounded by `capacity` (256 at the
creation site in `WebSocketHandler`), with `sendClosed` for `close(Send)`
and `connClosed` for `Conn.Close()`. -/
structure ClientState where
  userID : Int
  username : String
  capacity : Nat
  sendQueue : List LaunchData
  sendClosed : Bool
  connClosed : Bool
deriving DecidableEq

/-- Client-id-indexed heap standing for Go pointers to `Client`. -/
abbrev Heap := List (Nat × ClientState)

/-- Models the global `models.Clients : map[int][]*Client`. -/
abbrev Registry := List (Int × List Nat)

def heapLookup : Heap → Nat → Option ClientState
  | [], _ => none
  | p :: rest, k => if p.1 = k then some p.2 else heapLookup rest k

def heapUpdate : Heap → Nat → ClientState → Heap
  | [], _, _ => []
  | p :: rest, k, v => if p.1 = k then (k, v) :: rest else p :: heapUpdate rest k v

def regLookup : Registry → Int → Option (List Nat)
  | [], _ => none
  | p :: rest, u => if p.1 = u then some p.2 else regLookup rest u

def regUpdate : Registry → Int → List Nat → Registry
  | [], _, _ => []
  | p :: rest, u, l => if p.1 = u then (u, l) :: rest else p :: regUpdate rest u l

/-- Reading `models.Clients[uid]` outside a comma-ok form: absent keys read
as the empty slice. -/
def regLookupD (reg : Registry) (uid : Int) : List Nat :=
  (regLookup reg uid).getD []

/-- The whole shared server state: the registry map and the client heap. -/
structure SrvState where
  clients : Registry
  heap : Heap
deriving DecidableEq

/-- Models `registerClient` (websocket.go): appends the client to the
per-user slice, creating the map entry if absent. -/
def registerClient (cid : Nat) (c : ClientState) (st : SrvState) : SrvState :=
  let reg :=
    match regLookup st.clients c.userID with
    | some l => regUpdate st.clients c.userID (l ++ [cid])
    | none => st.clients ++ [(c.userID, [cid])]
  { clients := reg, heap := st.heap ++ [(cid, c)] }

/-- Models `unregisterClient` (websocket.go): removes the first
structurally identical entry from the user's slice (`List.erase`), then
runs `close(client.Send)` and `client.Conn.Close()`.  Go panics when
`close` hits an already-closed channel; the returned boolean is that
panic. On panic the registry removal has already happened (the lock is
released by `defer`) but `Conn.Close()` is never reached. -/
def unregisterClient (cid : Nat) (st : SrvState) : SrvState × Bool :=
  match heapLookup st.heap cid with
  | none => (st, false)
  | some c =>
    let reg := regUpdate st.clients c.userID ((regLookupD st.clients c.userID).erase cid)
    if c.sendClosed then
      ({ clients := reg, heap := st.heap }, true)
    else
      ({ clients := reg,
         heap := heapUpdate st.heap cid { c with sendClosed := true, connClosed := true } }, false)

/-- Result of a broadcast: the state after the enqueues, the clients whose
teardown was scheduled with `go unregisterClient(client)`, and whether a
send on a closed channel panicked. -/
structure BCastRes where
  st : SrvState
  sched : List Nat
  panicked : Bool
deriving DecidableEq

/-- Loop body of `broadcastToUser` (sync.go): for each client, Go's
`select` either sends (queue below capacity), or (channel closed) the send
case panics, or takes `default` and schedules `go unregisterClient`. -/
def broadcastGo (d : LaunchData) : List Nat → SrvState → List Nat → BCastRes
  | [], st, sched => ⟨st, sched, false⟩
  | cid :: rest, st, sched =>
    match heapLookup st.heap cid with
    | none => broadcastGo d rest st sched
    | some c =>
      if c.sendClosed then ⟨st, sched, true⟩
      else if c.sendQueue.length < c.capacity then
        broadcastGo d rest
          { st with heap := heapUpdate st.heap cid { c with sendQueue := c.sendQueue ++ [d] } }
          sched
      else
        broadcastGo d rest st (sched ++ [cid])

/-- Models `broadcastToUser` (sync.go): under the read lock, look the user
up in `Clients`; absent means return immediately; otherwise run the
non-blocking fanout loop over the user's clients in order. -/
def broadcastToUser (uid : Int) (d : LaunchData) (st : SrvState) : BCastRes :=
  match regLookup st.clients uid with
  | none => ⟨st, [], false⟩
  | some cids => broadcastGo d cids st []

/-- One wire message written by the outbound pump: either one
JSON-serialized full snapshot (`WriteMessage(TextMessage, jsonData)`) or
the websocket close frame (`WriteMessage(CloseMessage, ...)`). -/
inductive WireMsg where
  | text (d : LaunchData)
  | closeMessage
deriving DecidableEq

def isCloseMsg : WireMsg → Bool
  | .closeMessage => true
  | _ => false

/-- Models `Client.WritePump` (users.go).  `msgs` is the sequence of
snapshots received from the `Send` channel before it is closed; running
off the end models the `!ok` closed-channel receive.  `wOk k` says whether
the k-th `Conn.WriteMessage` of a snapshot succeeds.  On a closed channel
the pump writes one close frame (its error is ignored) and returns; on a
write error it returns at once.  `json.Marshal` of `LaunchData` cannot
fail, so serialization is total here; the deferred `Conn.Close()` is part
of teardown, not of the message stream. -/
def WritePump (wOk : Nat → Bool) : List LaunchData → Nat → List WireMsg
  | [], _ => [.closeMessage]
  | d :: rest, k =>
    if wOk k then .text d :: WritePump wOk rest (k + 1) else []

/-- Models the mutable state of `SyncService` (theme_service.dart):
the `_reconnectAttempts` counter. -/
structure SyncServiceState where
  reconnectAttempts : Nat
deriving DecidableEq

/-- Counter-relevant events of `SyncService.initWebSocket`:
`attemptStart` is the entry of `initWebSocket`, which runs
`_reconnectAttempts = 0` before the connection outcome is known;
`failure` is any of the `onError` / `onDone` / `catch` handlers, each of
which computes the delay, increments the counter and schedules
`initWebSocket` again after the delay. -/
inductive SyncEvent where
  | attemptStart
  | failure
deriving DecidableEq

/-- The delay expression of the failure handlers:
`min(5 * pow(2, _reconnectAttempts).toInt(), 300)` seconds. -/
def backoffDelay (attempts : Nat) : Nat := min (5 * 2 ^ attempts) 300

/-- One step of the reconnect state machine of `initWebSocket`. The
second component is the scheduled reconnect delay, when one is set. -/
def syncStep : SyncServiceState → SyncEvent → SyncServiceState × Option Nat
  | _, .attemptStart => (⟨0⟩, none)
  | s, .failure => (⟨s.reconnectAttempts + 1⟩, some (backoffDelay s.reconnectAttempts))

/-- Runs a sequence of events, collecting the scheduled delays in order. -/
def syncRun : SyncServiceState → List SyncEvent → SyncServiceState × List Nat
  | s, [] => (s, [])
  | s, e :: es =>
    match syncStep s e with
    | (s2, none) => syncRun s2 es
    | (s2, some dly) =>
      let r := syncRun s2 es
      (r.1, dly :: r.2)

/-- The event sequence of n consecutive failed connection attempts: each
attempt enters `initWebSocket` (resetting the counter) and then fails
exactly once. -/
def consecutiveFailureTrace : Nat → List SyncEvent
  | 0 => []
  | n + 1 => SyncEvent.attemptStart :: SyncEvent.failure :: consecutiveFailureTrace n

/-- One row of the `launch_data` table, keyed by `user_id` (the primary
key).  `lastLaunch = none` models SQL `NULL`. -/
structure DbRow where
  total : Int
  yearData : List (String × Int)
  monthData : List (String × Int)
  dayData : List (String × Int)
  lastLaunch : Option Time
deriving DecidableEq

abbrev Db := List (Int × DbRow)

def dbLookup : Db → Int → Option DbRow
  | [], _ => none
  | p :: rest, u => if p.1 = u then some p.2 else dbLookup rest u

/-- Models `UPDATE launch_data SET ... WHERE user_id = uid`: rewrites the
matching rows (at most one, `user_id` being the primary key) and succeeds
with zero rows affected when none matches. -/
def dbUpdateRow : Db → Int → DbRow → Db
  | [], _, _ => []
  | p :: rest, uid, r =>
    if p.1 = uid then (uid, r) :: dbUpdateRow rest uid r
    else p :: dbUpdateRow rest uid r

/-- Models `INSERT INTO launch_data ...` for a fresh `user_id`. -/
def dbInsertRow (db : Db) (uid : Int) (r : DbRow) : Db :=
  db ++ [(uid, r)]

/-- Inputs of one `GetSyncDataHandler` request.  `ctxUserID` is the
`user_id` the auth middleware put in the gin context; `queryFails` models
a `QueryRow` error other than `sql.ErrNoRows`; `insertFails` models a
failure of the initial-row `INSERT`. -/
structure GetInput where
  ctxUserID : Int
  queryFails : Bool
  insertFails : Bool
deriving DecidableEq

/-- The JSON object the handler returns on 200: the keys of the `gin.H`
literal (user_id, total, the three maps, last_launch). -/
structure SnapshotResp where
  userID : Int
  total : Int
  yearData : List (String × Int)
  monthData : List (String × Int)
  dayData : List (String × Int)
  lastLaunch : Time
deriving DecidableEq

inductive GetResp where
  | serverError
  | ok (r : SnapshotResp)
deriving DecidableEq

def timeZero : Time := 0

/-- Models `GetSyncDataHandler` (sync.go).  The handler scans
`total, year_data, month_data, day_data, last_launch` into a zero-valued
`models.LaunchData`; its `UserID` field is never a scan target and is
never assigned, so the response always carries the zero value there.  On
`sql.ErrNoRows` it inserts the default row
`(user_id, 0, braces, braces, braces, NULL)` and responds with the fresh
zero-valued struct.  An invalid (NULL) `last_launch` scans to the zero
time.  Stored rows keep their maps structured, so the `json.Unmarshal`
fallback branches of the handler cannot fire in the model. -/
def GetSyncDataHandler (inp : GetInput) (db : Db) : GetResp × Db :=
  if inp.queryFails then (.serverError, db)
  else
    match dbLookup db inp.ctxUserID with
    | none =>
      if inp.insertFails then (.serverError, db)
      else
        (.ok { userID := 0, total := 0, yearData := [], monthData := [], dayData := [],
               lastLaunch := timeZero },
         dbInsertRow db inp.ctxUserID
           { total := 0, yearData := [], monthData := [], dayData := [], lastLaunch := none })
    | some row =>
      (.ok { userID := 0, total := row.total, yearData := row.yearData,
             monthData := row.monthData, dayData := row.dayData,
             lastLaunch := row.lastLaunch.getD timeZero }, db)

/-- The anonymous request struct `ShouldBindJSON` fills in
`PostSyncDataHandler`: note the body carries its own `user_id`. -/
structure PostReq where
  userID : Int
  total : Int
  yearData : List (String × Int)
  monthData : List (String × Int)
  dayData : List (String × Int)
  lastLaunch : String
deriving DecidableEq

/-- Inputs of one `PostSyncDataHandler` request. `body = none` models a
`ShouldBindJSON` failure; `timeParse` models
`time.Parse(time.RFC3339, req.LastLaunch)`; `dbUpdateFails` models an
error from the `UPDATE` statement. -/
structure PostInput where
  ctxUserID : Int
  body : Option PostReq
  timeParse : String → Option Time
  dbUpdateFails : Bool

inductive PostResp where
  | badRequest
  | serverError
  | okMessage
deriving DecidableEq

/-- Everything one `PostSyncDataHandler` call produces: HTTP response,
database, server state after broadcast, the clients whose teardown the
broadcast scheduled, and the broadcast panic flag. -/
structure PostResult where
  resp : PostResp
  db : Db
  st : SrvState
  sched : List Nat
  panicked : Bool
deriving DecidableEq

/-- The `models.LaunchData` value the post handler builds from the parsed
request: every field, `UserID` included, is copied verbatim from the body
(`Version` keeps its zero value). -/
def launchDataOfReq (req : PostReq) (t : Time) : LaunchData :=
  { version := 0, userID := req.userID, total := req.total, yearData := req.yearData,
    monthData := req.monthData, dayData := req.dayData, lastLaunch := t }

/-- The row content the `UPDATE` writes (the `WHERE` key is separate). -/
def rowOfLaunchData (d : LaunchData) : DbRow :=
  { total := d.total, yearData := d.yearData, monthData := d.monthData,
    dayData := d.dayData, lastLaunch := some d.lastLaunch }

/-- Models `PostSyncDataHandler` (sync.go): parse body, parse timestamp,
`UPDATE ... WHERE user_id = ctxUserID`, then `broadcastToUser(ctxUserID,
data)` and answer 200; the response is chosen before and independently of
anything the broadcast does. -/
def PostSyncDataHandler (inp : PostInput) (db : Db) (st : SrvState) : PostResult :=
  match inp.body with
  | none => ⟨.badRequest, db, st, [], false⟩
  | some req =>
    match inp.timeParse req.lastLaunch with
    | none => ⟨.badRequest, db, st, [], false⟩
    | some t =>
      let data := launchDataOfReq req t
      if inp.dbUpdateFails then ⟨.serverError, db, st, [], false⟩
      else
        let db2 := dbUpdateRow db inp.ctxUserID (rowOfLaunchData data)
        let b := broadcastToUser inp.ctxUserID data st
        ⟨.okMessage, db2, b.st, b.sched, b.panicked⟩

/-- Inputs of one `WebSocketHandler` request.  `jwtParseOk` is the
`jwt.Parse` call with the HMAC-method check; `claimsOk` the
`token.Claims.(jwt.MapClaims)` assertion; `userIdClaim` collapses the two
rejections for a missing or non-float64 `user_id` claim into one option;
`usernameOf` is `SELECT username FROM users WHERE id = ?`. -/
structure WsInput where
  token : Option String
  jwtParseOk : Bool
  claimsOk : Bool
  userIdClaim : Option Int
  upgradeOk : Bool
  usernameOf : Int → Option String

/-- Observable events of `WebSocketHandler`, in program order. -/
inductive WsEvent where
  | respondUnauthorized
  | upgradeTransport
  | upgradeFailed
  | closeConn
  | registerSession (uid : Int) (name : String)
  | startPumps
deriving DecidableEq

def isRegisterEvent : WsEvent → Bool
  | .registerSession _ _ => true
  | _ => false

/-- Identity verification as the handler performs it before the upgrade:
token present, JWT parses, claims cast, user_id claim usable. -/
def wsAuthOk (inp : WsInput) : Bool :=
  inp.token.isSome && inp.jwtParseOk && inp.claimsOk && inp.userIdClaim.isSome

/-- Models `WebSocketHandler` (websocket.go) as its event trace.  The
token / JWT / claims / user_id checks all reject with 401 before the
upgrade; `upgrader.Upgrade` runs next; only then does the handler query
the username, closing the fresh connection on a lookup failure, and
otherwise building the `Client` (Send capacity 256), registering it and
starting both pumps. -/
def WebSocketHandler (inp : WsInput) : List WsEvent :=
  match inp.token with
  | none => [.respondUnauthorized]
  | some _ =>
    if !inp.jwtParseOk then [.respondUnauthorized]
    else if !inp.claimsOk then [.respondUnauthorized]
    else
      match inp.userIdClaim with
      | none => [.respondUnauthorized]
      | some uid =>
        if !inp.upgradeOk then [.upgradeFailed]
        else
          match inp.usernameOf uid with
          | none => [.upgradeTransport, .closeConn]
          | some name => [.upgradeTransport, .registerSession uid name, .startPumps]

/-- A client id that is live in a state: present in the heap with its
`Send` channel still open.  This is exactly the condition under which
Go's `select` on that channel cannot panic. -/
def openClient (st : SrvState) (cid : Nat) : Bool :=
  match heapLookup st.heap cid with
  | some c => !c.sendClosed
  | none => false

theorem heapLookup_update_self (h : Heap) (k : Nat) (c v : ClientState)
    (hl : heapLookup h k = some c) : heapLookup (heapUpdate h k v) k = some v := by
  induction h with
  | nil => simp [heapLookup] at hl
  | cons p rest ih =>
    by_cases hk : p.1 = k
    · simp [heapLookup, heapUpdate, hk]
    · simp only [heapLookup, heapUpdate, hk, if_false, if_neg hk] at hl ⊢
      exact ih hl

theorem heapLookup_update_ne (h : Heap) (k k2 : Nat) (v : ClientState) (hne : k2 ≠ k) :
    heapLookup (heapUpdate h k v) k2 = heapLookup h k2 := by
  induction h with
  | nil => simp [heapUpdate]
  | cons p rest ih =>
    simp only [heapUpdate]
    by_cases hk : p.1 = k
    · rw [if_pos hk]
      simp only [heapLookup]
      rw [if_neg (Ne.symm hne), if_neg (fun h2 => (Ne.symm hne) (hk.symm.trans h2))]
    · rw [if_neg hk]
      simp only [heapLookup]
      by_cases hp2 : p.1 = k2
      · rw [if_pos hp2, if_pos hp2]
      · rw [if_neg hp2, if_neg hp2]
        exact ih

theorem regLookup_update_self (reg : Registry) (u : Int) (l0 l : List Nat)
    (hl : regLookup reg u = some l0) : regLookup (regUpdate reg u l) u = some l := by
  induction reg with
  | nil => simp [regLookup] at hl
  | cons p rest ih =>
    by_cases hk : p.1 = u
    · simp [regLookup, regUpdate, hk]
    · simp only [regLookup, regUpdate, hk, if_neg hk, if_false] at hl ⊢
      exact ih hl

theorem openClient_update_same_closed (st : SrvState) (k : Nat) (c v : ClientState)
    (hl : heapLookup st.heap k = some c) (hsc : v.sendClosed = c.sendClosed) (x : Nat) :
    openClient { st with heap := heapUpdate st.heap k v } x = openClient st x := by
  by_cases hx : x = k
  · subst hx
    simp [openClient, heapLookup_update_self st.heap x c v hl, hl, hsc]
  · simp [openClient, heapLookup_update_ne st.heap k x v hx]

theorem broadcastGo_clients (d : LaunchData) (cids : List Nat) :
    ∀ (st : SrvState) (sched : List Nat), (broadcastGo d cids st sched).st.clients = st.clients := by
  induction cids with
  | nil => intro st sched; rfl
  | cons cid rest ih =>
    intro st sched
    cases hl : heapLookup st.heap cid with
    | none => simp only [broadcastGo, hl]; exact ih st sched
    | some c =>
      by_cases hc : c.sendClosed = true
      · simp [broadcastGo, hl, hc]
      · by_cases hsp : c.sendQueue.length < c.capacity
        · simp only [broadcastGo, hl, hc, hsp, if_true, if_false, Bool.false_eq_true,
            not_false_eq_true, if_neg, if_pos]
          exact ih _ sched
        · simp only [broadcastGo, hl, hc, hsp, if_false, Bool.false_eq_true,
            not_false_eq_true, if_neg]
          exact ih st (sched ++ [cid])

theorem broadcastGo_sched_mono (d : LaunchData) (cids : List Nat) :
    ∀ (st : SrvState) (sched : List Nat) (x : Nat),
      x ∈ sched → x ∈ (broadcastGo d cids st sched).sched := by
  induction cids with
  | nil => intro st sched x hx; exact hx
  | cons cid rest ih =>
    intro st sched x hx
    cases hl : heapLookup st.heap cid with
    | none => simp only [broadcastGo, hl]; exact ih st sched x hx
    | some c =>
      by_cases hc : c.sendClosed = true
      · simp [broadcastGo, hl, hc, hx]
      · by_cases hsp : c.sendQueue.length < c.capacity
        · simp only [broadcastGo, hl, hc, hsp, Bool.false_eq_true, not_false_eq_true,
            if_neg, if_pos]
          exact ih _ sched x hx
        · simp only [broadcastGo, hl, hc, hsp, Bool.false_eq_true, not_false_eq_true,
            if_neg]
          exact ih st (sched ++ [cid]) x (List.mem_append_left _ hx)

theorem broadcastGo_heap_not_mem (d : LaunchData) (cids : List Nat) :
    ∀ (st : SrvState) (sched : List Nat) (x : Nat), x ∉ cids →
      heapLookup (broadcastGo d cids st sched).st.heap x = heapLookup st.heap x := by
  induction cids with
  | nil => intro st sched x _; rfl
  | cons cid rest ih =>
    intro st sched x hx
    have hxr : x ∉ rest := fun h => hx (List.mem_cons_of_mem _ h)
    have hxc : x ≠ cid := fun h => hx (h ▸ List.mem_cons_self _ _)
    cases hl : heapLookup st.heap cid with
    | none => simp only [broadcastGo, hl]; exact ih st sched x hxr
    | some c =>
      by_cases hc : c.sendClosed = true
      · simp [broadcastGo, hl, hc]
      · by_cases hsp : c.sendQueue.length < c.capacity
        · simp only [broadcastGo, hl, hc, hsp, Bool.false_eq_true, not_false_eq_true,
            if_neg, if_pos]
          rw [ih _ sched x hxr]
          exact heapLookup_update_ne st.heap cid x _ hxc
        · simp only [broadcastGo, hl, hc, hsp, Bool.false_eq_true, not_false_eq_true,
            if_neg]
          exact ih st (sched ++ [cid]) x hxr

theorem broadcastGo_no_panic (d : LaunchData) (cids : List Nat) :
    ∀ (st : SrvState) (sched : List Nat),
      (∀ x ∈ cids, openClient st x = true) →
      (broadcastGo d cids st sched).panicked = false := by
  induction cids with
  | nil => intro st sched _; rfl
  | cons cid rest ih =>
    intro st sched hall
    have hrest : ∀ x ∈ rest, openClient st x = true :=
      fun x hx => hall x (List.mem_cons_of_mem _ hx)
    cases hl : heapLookup st.heap cid with
    | none => simp only [broadcastGo, hl]; exact ih st sched hrest
    | some c =>
      have hopen : openClient st cid = true := hall cid (List.mem_cons_self _ _)
      have hc : c.sendClosed = false := by
        simp [openClient, hl] at hopen
        simpa using hopen
      have hcne : ¬ (c.sendClosed = true) := by simp [hc]
      by_cases hsp : c.sendQueue.length < c.capacity
      · simp only [broadcastGo, hl]
        rw [if_neg hcne, if_pos hsp]
        apply ih
        intro x hx
        rw [openClient_update_same_closed st cid c { c with sendQueue := c.sendQueue ++ [d] }
          hl rfl x]
        exact hrest x hx
      · simp only [broadcastGo, hl]
        rw [if_neg hcne, if_neg hsp]
        exact ih st (sched ++ [cid]) hrest

theorem broadcastGo_full_scheduled (d : LaunchData) (cids : List Nat) :
    ∀ (st : SrvState) (sched : List Nat) (cid : Nat) (c : ClientState),
      cids.Nodup → cid ∈ cids →
      heapLookup st.heap cid = some c →
      (∀ x ∈ cids, openClient st x = true) →
      ¬ c.sendQueue.length < c.capacity →
      cid ∈ (broadcastGo d cids st sched).sched ∧
      heapLookup (broadcastGo d cids st sched).st.heap cid = some c := by
  induction cids with
  | nil => intro st sched cid c _ hmem; cases hmem
  | cons y rest ih =>
    intro st sched cid c hnd hmem hl hall hfull
    have hrestopen : ∀ x ∈ rest, openClient st x = true :=
      fun x hx => hall x (List.mem_cons_of_mem _ hx)
    by_cases hcy : cid = y
    · subst hcy
      have hopen := hall cid (List.mem_cons_self _ _)
      have hc : c.sendClosed = false := by
        simp [openClient, hl] at hopen
        simpa using hopen
      have hcne : ¬ (c.sendClosed = true) := by simp [hc]
      have hnotrest : cid ∉ rest := (List.nodup_cons.mp hnd).1
      simp only [broadcastGo, hl]
      rw [if_neg hcne, if_neg hfull]
      refine ⟨broadcastGo_sched_mono d rest st (sched ++ [cid]) cid ?_, ?_⟩
      · exact List.mem_append_right _ (List.mem_singleton_self _)
      · rw [broadcastGo_heap_not_mem d rest st (sched ++ [cid]) cid hnotrest]
        exact hl
    · have hmem2 : cid ∈ rest := by
        rcases List.mem_cons.mp hmem with h | h
        · exact absurd h hcy
        · exact h
      have hnd2 : rest.Nodup := (List.nodup_cons.mp hnd).2
      cases hly : heapLookup st.heap y with
      | none =>
        simp only [broadcastGo, hly]
        exact ih st sched cid c hnd2 hmem2 hl hrestopen hfull
      | some cy =>
        have hopy := hall y (List.mem_cons_self _ _)
        have hcy2 : cy.sendClosed = false := by
          simp [openClient, hly] at hopy
          simpa using hopy
        have hcyne : ¬ (cy.sendClosed = true) := by simp [hcy2]
        by_cases hspy : cy.sendQueue.length < cy.capacity
        · simp only [broadcastGo, hly]
          rw [if_neg hcyne, if_pos hspy]
          refine ih _ sched cid c hnd2 hmem2 ?_ ?_ hfull
          · rw [heapLookup_update_ne st.heap y cid _ hcy]
            exact hl
          · intro x hx
            rw [openClient_update_same_closed st y cy
              { cy with sendQueue := cy.sendQueue ++ [d] } hly rfl x]
            exact hrestopen x hx
        · simp only [broadcastGo, hly]
          rw [if_neg hcyne, if_neg hspy]
          exact ih st (sched ++ [y]) cid c hnd2 hmem2 hl hrestopen hfull

theorem broadcastGo_space_enqueued (d : LaunchData) (cids : List Nat) :
    ∀ (st : SrvState) (sched : List Nat) (cid : Nat) (c : ClientState),
      cids.Nodup → cid ∈ cids →
      heapLookup st.heap cid = some c →
      (∀ x ∈ cids, openClient st x = true) →
      c.sendQueue.length < c.capacity →
      heapLookup (broadcastGo d cids st sched).st.heap cid =
        some { c with sendQueue := c.sendQueue ++ [d] } := by
  induction cids with
  | nil => intro st sched cid c _ hmem; cases hmem
  | cons y rest ih =>
    intro st sched cid c hnd hmem hl hall hsp
    have hrestopen : ∀ x ∈ rest, openClient st x = true :=
      fun x hx => hall x (List.mem_cons_of_mem _ hx)
    by_cases hcy : cid = y
    · subst hcy
      have hopen := hall cid (List.mem_cons_self _ _)
      have hc : c.sendClosed = false := by
        simp [openClient, hl] at hopen
        simpa using hopen
      have hcne : ¬ (c.sendClosed = true) := by simp [hc]
      have hnotrest : cid ∉ rest := (List.nodup_cons.mp hnd).1
      simp only [broadcastGo, hl]
      rw [if_neg hcne, if_pos hsp]
      rw [broadcastGo_heap_not_mem d rest _ sched cid hnotrest]
      exact heapLookup_update_self st.heap cid c _ hl
    · have hmem2 : cid ∈ rest := by
        rcases List.mem_cons.mp hmem with h | h
        · exact absurd h hcy
        · exact h
      have hnd2 : rest.Nodup := (List.nodup_cons.mp hnd).2
      cases hly : heapLookup st.heap y with
      | none =>
        simp only [broadcastGo, hly]
        exact ih st sched cid c hnd2 hmem2 hl hrestopen hsp
      | some cy =>
        have hopy := hall y (List.mem_cons_self _ _)
        have hcy2 : cy.sendClosed = false := by
          simp [openClient, hly] at hopy
          simpa using hopy
        have hcyne : ¬ (cy.sendClosed = true) := by simp [hcy2]
        by_cases hspy : cy.sendQueue.length < cy.capacity
        · simp only [broadcastGo, hly]
          rw [if_neg hcyne, if_pos hspy]
          refine ih _ sched cid c hnd2 hmem2 ?_ ?_ hsp
          · rw [heapLookup_update_ne st.heap y cid _ hcy]
            exact hl
          · intro x hx
            rw [openClient_update_same_closed st y cy
              { cy with sendQueue := cy.sendQueue ++ [d] } hly rfl x]
            exact hrestopen x hx
        · simp only [broadcastGo, hly]
          rw [if_neg hcyne, if_neg hspy]
          exact ih st (sched ++ [y]) cid c hnd2 hmem2 hl hrestopen hsp

theorem dbLookup_updateRow_ne (db : Db) (uid uid2 : Int) (r : DbRow) (h : uid2 ≠ uid) :
    dbLookup (dbUpdateRow db uid r) uid2 = dbLookup db uid2 := by
  induction db with
  | nil => rfl
  | cons p rest ih =>
    simp only [dbUpdateRow]
    by_cases hp : p.1 = uid
    · rw [if_pos hp]
      simp only [dbLookup]
      rw [if_neg (Ne.symm h), if_neg (fun h2 => (Ne.symm h) (hp.symm.trans h2))]
      exact ih
    · rw [if_neg hp]
      simp only [dbLookup]
      by_cases hp2 : p.1 = uid2
      · rw [if_pos hp2, if_pos hp2]
      · rw [if_neg hp2, if_neg hp2]
        exact ih

theorem dbLookup_updateRow_self (db : Db) (uid : Int) (r row0 : DbRow)
    (h : dbLookup db uid = some row0) :
    dbLookup (dbUpdateRow db uid r) uid = some r := by
  induction db with
  | nil => simp [dbLookup] at h
  | cons p rest ih =>
    simp only [dbUpdateRow]
    by_cases hp : p.1 = uid
    · rw [if_pos hp]
      simp [dbLookup]
    · rw [if_neg hp]
      simp only [dbLookup, if_neg hp] at h ⊢
      exact ih h

theorem WritePump_all_ok (wOk : Nat → Bool) (hall : ∀ j, wOk j = true)
    (msgs : List LaunchData) :
    ∀ k, WritePump wOk msgs k = msgs.map WireMsg.text ++ [WireMsg.closeMessage] := by
  induction msgs with
  | nil => intro k; rfl
  | cons d rest ih =>
    intro k
    simp [WritePump, hall k, ih (k + 1)]

theorem WritePump_fail_at (wOk : Nat → Bool) (msgs : List LaunchData) :
    ∀ (k j : Nat), j < msgs.length → wOk (k + j) = false →
      (∀ i, i < j → wOk (k + i) = true) →
      WritePump wOk msgs k = (msgs.take j).map WireMsg.text := by
  induction msgs with
  | nil =>
    intro k j hj
    simp at hj
  | cons d rest ih =>
    intro k j hj hfail hpre
    cases j with
    | zero =>
      have h0 : wOk k = false := by simpa using hfail
      simp [WritePump, h0]
    | succ j2 =>
      have hk : wOk k = true := by
        have := hpre 0 (Nat.succ_pos _)
        simpa using this
      have hfail2 : wOk ((k + 1) + j2) = false := by
        have he : (k + 1) + j2 = k + (j2 + 1) := by omega
        rw [he]
        exact hfail
      have hpre2 : ∀ i, i < j2 → wOk ((k + 1) + i) = true := by
        intro i hi
        have he : (k + 1) + i = k + (i + 1) := by omega
        rw [he]
        exact hpre (i + 1) (by omega)
      have hj2 : j2 < rest.length := by simpa using hj
      simp [WritePump, hk, ih (k + 1) j2 hj2 hfail2 hpre2]

theorem WritePump_close_count (wOk : Nat → Bool) (msgs : List LaunchData) :
    ∀ k, ((WritePump wOk msgs k).countP isCloseMsg) ≤ 1 := by
  induction msgs with
  | nil => intro k; simp [WritePump, isCloseMsg]
  | cons d rest ih =>
    intro k
    by_cases h : wOk k = true
    · simp only [WritePump, h, if_pos]
      rw [List.countP_cons]
      simp only [isCloseMsg, if_neg]
      simpa using ih (k + 1)
    · simp [WritePump, h]

/-- Concrete snapshots used by witnesses and counterexamples. -/
def snapA : LaunchData :=
  { version := 0, userID := 1, total := 5, yearData := [("2024", 5)],
    monthData := [("2024-1", 5)], dayData := [("2024-1-1", 5)], lastLaunch := 100 }

def snapB : LaunchData :=
  { version := 0, userID := 1, total := 6, yearData := [("2024", 6)],
    monthData := [("2024-1", 6)], dayData := [("2024-1-1", 6)], lastLaunch := 200 }

def snapC : LaunchData :=
  { version := 0, userID := 1, total := 7, yearData := [], monthData := [],
    dayData := [], lastLaunch := 300 }

/-- C8: the outbound pump writes each queued snapshot to the transport as
one self-contained full-snapshot message, in queue order, with no batching
and no deltas; on observing the closed queue it sends exactly one closing
signal and terminates; on the first write failure it terminates at once,
writing nothing further and no closing signal; it never emits more than
one closing signal. -/
theorem C8_write_pump_one_message_per_snapshot (wOk : Nat → Bool) (msgs : List LaunchData) :
    ((∀ j, wOk j = true) →
       WritePump wOk msgs 0 = msgs.map WireMsg.text ++ [WireMsg.closeMessage]) ∧
    (∀ j, j < msgs.length → wOk j = false → (∀ i, i < j → wOk i = true) →
       WritePump wOk msgs 0 = (msgs.take j).map WireMsg.text) ∧
    (WritePump wOk msgs 0).countP isCloseMsg ≤ 1 := by
  refine ⟨fun hall => WritePump_all_ok wOk hall msgs 0, ?_, WritePump_close_count wOk msgs 0⟩
  intro j hj hf hp
  have hf0 : wOk (0 + j) = false := by simpa using hf
  have hp0 : ∀ i, i < j → wOk (0 + i) = true := fun i hi => by simpa using hp i hi
  exact WritePump_fail_at wOk msgs 0 j hj hf0 hp0

/-- Witness for C8: with all writes succeeding, two queued snapshots leave
the pump as exactly two full-snapshot messages followed by one close
frame; with the third write failing, the pump stops after two messages
and sends no close frame. -/
theorem C8_write_pump_one_message_per_snapshot_witness :
    WritePump (fun _ => true) [snapA, snapB] 0 =
      [WireMsg.text snapA, WireMsg.text snapB, WireMsg.closeMessage] ∧
    WritePump (fun j => decide (j < 2)) [snapA, snapB, snapC] 0 =
      [WireMsg.text snapA, WireMsg.text snapB] := by
  constructor
  · have h := (C8_write_pump_one_message_per_snapshot (fun _ => true) [snapA, snapB]).1
      (fun _ => rfl)
    simpa using h
  · have h := (C8_write_pump_one_message_per_snapshot (fun j => decide (j < 2))
      [snapA, snapB, snapC]).2.1 2 (by decide) (by decide)
      (fun i hi => by simp [hi])
    simpa using h

/-- C2 counterexample: after one failed connection attempt the attempt
counter is 1, so under the claimed policy the retry of the second
consecutive failed attempt would be scheduled after
`min(5 * 2 ^ 1, 300) = 10` seconds; but `initWebSocket` resets
`_reconnectAttempts` to 0 on entry of every attempt, so the code schedules
both retries after 5 seconds. -/
theorem C2_counterexample_backoff_never_grows :
    (syncRun ⟨0⟩ (consecutiveFailureTrace 2)).2 = [5, 5] ∧
    [backoffDelay 0, backoffDelay 1] = [5, 10] ∧
    (syncRun ⟨0⟩ (consecutiveFailureTrace 2)).2 ≠ [backoffDelay 0, backoffDelay 1] := by
  decide

/-- C2 (amended): each individual failure handler schedules the reconnect
after `min(5 * 2 ^ attempts, 300)` seconds and increments the counter, but
entering `initWebSocket` resets the counter to zero before the outcome of
the attempt is known — not only on a successful connect — so a run of n
consecutive failed connection attempts schedules every retry after a
constant 5 seconds and the delay never grows. -/
theorem C2_backoff_counter_reset_on_every_attempt (n : Nat) (s : SyncServiceState) :
    (syncRun s (consecutiveFailureTrace n)).2 = List.replicate n 5 ∧
    (∀ s2, syncStep s2 SyncEvent.failure =
      (⟨s2.reconnectAttempts + 1⟩, some (backoffDelay s2.reconnectAttempts))) ∧
    (∀ s2, syncStep s2 SyncEvent.attemptStart = (⟨0⟩, none)) := by
  refine ⟨?_, fun s2 => rfl, fun s2 => rfl⟩
  induction n generalizing s with
  | zero => rfl
  | succ m ih =>
    simp only [consecutiveFailureTrace, syncRun, syncStep]
    rw [ih ⟨1⟩]
    rfl

/-- The one registered session of user 1 before the first unregister. -/
def c1client : ClientState :=
  { userID := 1, username := "alice", capacity := 256, sendQueue := [],
    sendClosed := false, connClosed := false }

def c1st : SrvState := { clients := [(1, [0])], heap := [(0, c1client)] }

/-- C1 (code bug): the first `unregisterClient` removes the session and
closes its channel without panicking, but the second call in sequence —
exactly the situation the code itself creates when the broadcast path's
`go unregisterClient(client)` is followed by the connection handler's
deferred `unregisterClient` — reaches `close(client.Send)` with the
channel already closed, which panics in Go.  The registry itself is not
mutated further by the second call; the spec's claimed no-op is broken
only by the double-close panic. -/
theorem C1_second_unregister_panics_on_double_close :
    (unregisterClient 0 c1st).2 = false ∧
    regLookup (unregisterClient 0 c1st).1.clients 1 = some [] ∧
    (unregisterClient 0 (unregisterClient 0 c1st).1).2 = true ∧
    (unregisterClient 0 (unregisterClient 0 c1st).1).1.clients =
      (unregisterClient 0 c1st).1.clients := by
  decide

/-- A connection-upgrade request that authenticates but whose
display-metadata (username) lookup fails. -/
def c3input : WsInput :=
  { token := some "tok", jwtParseOk := true, claimsOk := true, userIdClaim := some 1,
    upgradeOk := true, usernameOf := fun _ => none }

/-- C3 counterexample: on this request the transport IS upgraded even
though the display-metadata lookup never succeeds — `upgrader.Upgrade`
runs before the username query — so the claim that the transport is never
upgraded before the metadata lookup has succeeded is false.  (The
connection is then closed and no Session is registered.) -/
theorem C3_counterexample_upgrade_precedes_metadata :
    WebSocketHandler c3input = [WsEvent.upgradeTransport, WsEvent.closeConn] ∧
    WsEvent.upgradeTransport ∈ WebSocketHandler c3input ∧
    c3input.usernameOf 1 = none ∧
    (WebSocketHandler c3input).any isRegisterEvent = false := by
  decide

/-- C3 (amended): the transport is upgraded only after the identity
verification steps (token present, JWT valid, claims readable, numeric
user id) have all succeeded, but BEFORE the display-metadata lookup; when
that lookup fails the fresh connection is closed and no Session is
constructed or registered. -/
theorem C3_upgrade_after_auth_before_metadata (inp : WsInput) :
    (WsEvent.upgradeTransport ∈ WebSocketHandler inp →
       wsAuthOk inp = true ∧ inp.upgradeOk = true) ∧
    (∀ (s : String) (uid : Int), inp.token = some s → inp.jwtParseOk = true →
       inp.claimsOk = true → inp.userIdClaim = some uid → inp.upgradeOk = true →
       inp.usernameOf uid = none →
       WebSocketHandler inp = [WsEvent.upgradeTransport, WsEvent.closeConn] ∧
       (WebSocketHandler inp).any isRegisterEvent = false) := by
  obtain ⟨tok, jp, co, uic, up, un⟩ := inp
  constructor
  · intro hmem
    cases tok with
    | none => simp [WebSocketHandler] at hmem
    | some s =>
      cases jp with
      | false => simp [WebSocketHandler] at hmem
      | true =>
        cases co with
        | false => simp [WebSocketHandler] at hmem
        | true =>
          cases uic with
          | none => simp [WebSocketHandler] at hmem
          | some uid =>
            cases up with
            | false => simp [WebSocketHandler] at hmem
            | true => simp [wsAuthOk]
  · intro s uid hs hjp hco huic hup hun
    cases hs
    cases hjp
    cases hco
    cases huic
    cases hup
    have hun2 : un uid = none := hun
    simp [WebSocketHandler, hun2, isRegisterEvent]

/-- Witness for C3: on the concrete authenticated request whose username
lookup fails, the trace is exactly upgrade-then-close and no register
event occurs. -/
theorem C3_upgrade_after_auth_before_metadata_witness :
    WebSocketHandler c3input = [WsEvent.upgradeTransport, WsEvent.closeConn] ∧
    (WebSocketHandler c3input).any isRegisterEvent = false :=
  (C3_upgrade_after_auth_before_metadata c3input).2 "tok" 1 rfl rfl rfl rfl rfl rfl

/-- C5: the dispatcher never blocks or retries on a saturated Session.
For a user with no Sessions it returns immediately without error.  For a
registered, open set of Sessions it leaves the registry untouched and
panics nowhere; every Session whose queue is at capacity is scheduled for
asynchronous teardown, its queue untouched, and running that scheduled
`unregisterClient` removes it from the registry lookup and closes both
its channel and its transport; every Session with spare capacity receives
the snapshot and the loop continues past saturated ones. -/
theorem C5_dispatch_purges_saturated_sessions (st : SrvState) (uid : Int) (d : LaunchData)
    (cids : List Nat) :
    (regLookup st.clients uid = none → broadcastToUser uid d st = ⟨st, [], false⟩) ∧
    (regLookup st.clients uid = some cids → cids.Nodup →
     (∀ x ∈ cids, openClient st x = true) →
     (broadcastToUser uid d st).st.clients = st.clients ∧
     (broadcastToUser uid d st).panicked = false ∧
     (∀ cid c, cid ∈ cids → heapLookup st.heap cid = some c → c.userID = uid →
        ¬ c.sendQueue.length < c.capacity →
        cid ∈ (broadcastToUser uid d st).sched ∧
        heapLookup (broadcastToUser uid d st).st.heap cid = some c ∧
        (unregisterClient cid (broadcastToUser uid d st).st).2 = false ∧
        cid ∉ regLookupD (unregisterClient cid (broadcastToUser uid d st).st).1.clients uid ∧
        heapLookup (unregisterClient cid (broadcastToUser uid d st).st).1.heap cid =
          some { c with sendClosed := true, connClosed := true }) ∧
     (∀ cid c, cid ∈ cids → heapLookup st.heap cid = some c →
        c.sendQueue.length < c.capacity →
        heapLookup (broadcastToUser uid d st).st.heap cid =
          some { c with sendQueue := c.sendQueue ++ [d] })) := by
  constructor
  · intro hnone
    simp [broadcastToUser, hnone]
  · intro hsome hnd hall
    have hbt : broadcastToUser uid d st = broadcastGo d cids st [] := by
      simp [broadcastToUser, hsome]
    rw [hbt]
    refine ⟨broadcastGo_clients d cids st [], broadcastGo_no_panic d cids st [] hall, ?_, ?_⟩
    · intro cid c hmem hl huid hfull
      obtain ⟨hsch, hheap⟩ :=
        broadcastGo_full_scheduled d cids st [] cid c hnd hmem hl hall hfull
      have hopen := hall cid hmem
      have hc : c.sendClosed = false := by
        simp [openClient, hl] at hopen
        simpa using hopen
      have hunreg : unregisterClient cid (broadcastGo d cids st []).st =
          ({ clients := regUpdate (broadcastGo d cids st []).st.clients c.userID
               ((regLookupD (broadcastGo d cids st []).st.clients c.userID).erase cid),
             heap := heapUpdate (broadcastGo d cids st []).st.heap cid
               { c with sendClosed := true, connClosed := true } }, false) := by
        simp only [unregisterClient, hheap]
        rw [if_neg (by simp [hc])]
      have hreg2 : regLookup (broadcastGo d cids st []).st.clients uid = some cids := by
        rw [broadcastGo_clients d cids st []]
        exact hsome
      refine ⟨hsch, hheap, ?_, ?_, ?_⟩
      · rw [hunreg]
      · rw [hunreg]
        simp only [regLookupD]
        have hD : (regLookup (broadcastGo d cids st []).st.clients c.userID).getD [] = cids := by
          rw [huid, hreg2]
          rfl
        rw [hD, huid, regLookup_update_self _ uid cids _ hreg2]
        simp only [Option.getD_some]
        exact hnd.not_mem_erase
      · rw [hunreg]
        exact heapLookup_update_self _ cid c _ hheap
    · intro cid c hmem hl hsp
      exact broadcastGo_space_enqueued d cids st [] cid c hnd hmem hl hall hsp

/-- A saturated session of user 7: capacity 1 with one undrained snapshot. -/
def c5full : ClientState :=
  { userID := 7, username := "bob", capacity := 1, sendQueue := [snapA],
    sendClosed := false, connClosed := false }

/-- A healthy sibling session of user 7 with spare capacity. -/
def c5spare : ClientState :=
  { userID := 7, username := "carol", capacity := 2, sendQueue := [],
    sendClosed := false, connClosed := false }

def c5st : SrvState := { clients := [(7, [0, 1])], heap := [(0, c5full), (1, c5spare)] }

/-- Witness for C5: dispatching to user 7 schedules teardown of the
saturated session 0, the healthy session 1 still gets the snapshot, and
running the scheduled unregister leaves session 0 absent from the
registry lookup with channel and transport closed. -/
theorem C5_dispatch_purges_saturated_sessions_witness :
    0 ∈ (broadcastToUser 7 snapB c5st).sched ∧
    0 ∉ regLookupD (unregisterClient 0 (broadcastToUser 7 snapB c5st).st).1.clients 7 ∧
    heapLookup (unregisterClient 0 (broadcastToUser 7 snapB c5st).st).1.heap 0 =
      some { c5full with sendClosed := true, connClosed := true } ∧
    heapLookup (broadcastToUser 7 snapB c5st).st.heap 1 =
      some { c5spare with sendQueue := [snapB] } := by
  obtain ⟨hcl, hp, hfull, hspace⟩ :=
    (C5_dispatch_purges_saturated_sessions c5st 7 snapB [0, 1]).2 rfl (by decide) (by decide)
  obtain ⟨h1, h2, h3, h4, h5⟩ := hfull 0 c5full (by decide) rfl rfl (by decide)
  have h6 := hspace 1 c5spare (by decide) rfl (by decide)
  exact ⟨h1, h4, h5, by simpa using h6⟩

/-- C4 (amended): for an authenticated push whose body and timestamp
parse, the handler persists the snapshot under the authenticated user's
row and then dispatches it via `broadcastToUser` to every live Session of
that user — including the submitting device's own session, since the
broadcast has no way to exclude it — and answers 200 based on persistence
alone, whatever the per-session dispatch outcomes are; every open session
with spare queue capacity receives the snapshot. -/
theorem C4_post_persists_then_broadcasts (inp : PostInput) (db : Db) (st : SrvState)
    (req : PostReq) (t : Time) :
    inp.body = some req → inp.timeParse req.lastLaunch = some t →
    inp.dbUpdateFails = false →
    PostSyncDataHandler inp db st =
      ⟨.okMessage, dbUpdateRow db inp.ctxUserID (rowOfLaunchData (launchDataOfReq req t)),
       (broadcastToUser inp.ctxUserID (launchDataOfReq req t) st).st,
       (broadcastToUser inp.ctxUserID (launchDataOfReq req t) st).sched,
       (broadcastToUser inp.ctxUserID (launchDataOfReq req t) st).panicked⟩ ∧
    (∀ cids cid c, regLookup st.clients inp.ctxUserID = some cids → cids.Nodup →
       (∀ x ∈ cids, openClient st x = true) →
       cid ∈ cids → heapLookup st.heap cid = some c →
       c.sendQueue.length < c.capacity →
       heapLookup (PostSyncDataHandler inp db st).st.heap cid =
         some { c with sendQueue := c.sendQueue ++ [launchDataOfReq req t] }) := by
  intro hbody htp hdb
  have hrun : PostSyncDataHandler inp db st =
      ⟨.okMessage, dbUpdateRow db inp.ctxUserID (rowOfLaunchData (launchDataOfReq req t)),
       (broadcastToUser inp.ctxUserID (launchDataOfReq req t) st).st,
       (broadcastToUser inp.ctxUserID (launchDataOfReq req t) st).sched,
       (broadcastToUser inp.ctxUserID (launchDataOfReq req t) st).panicked⟩ := by
    simp [PostSyncDataHandler, hbody, htp, hdb]
  refine ⟨hrun, ?_⟩
  intro cids cid c hsome hnd hall hmem hl hsp
  rw [hrun]
  have hbt : broadcastToUser inp.ctxUserID (launchDataOfReq req t) st =
      broadcastGo (launchDataOfReq req t) cids st [] := by
    simp [broadcastToUser, hsome]
  rw [hbt]
  exact broadcastGo_space_enqueued (launchDataOfReq req t) cids st [] cid c hnd hmem hl hall hsp

/-- The submitting device's own live websocket session of user 7. -/
def c4ownSession : ClientState :=
  { userID := 7, username := "dave", capacity := 256, sendQueue := [],
    sendClosed := false, connClosed := false }

def c4st : SrvState := { clients := [(7, [0])], heap := [(0, c4ownSession)] }

def c4req : PostReq :=
  { userID := 7, total := 6, yearData := [("2024", 6)], monthData := [("2024-1", 6)],
    dayData := [("2024-1-1", 6)], lastLaunch := "2024-01-01T00:00:00Z" }

def c4inp : PostInput :=
  { ctxUserID := 7, body := some c4req, timeParse := fun _ => some 100,
    dbUpdateFails := false }

def c4db : Db :=
  [(7, { total := 5, yearData := [("2024", 5)], monthData := [("2024-1", 5)],
         dayData := [("2024-1-1", 5)], lastLaunch := some 50 })]

/-- C4 counterexample: user 7's only live Session (id 0) is the one held
by the submitting device itself, and its queue starts empty; after the
push the handler has enqueued the snapshot into it, so the dispatch is
NOT restricted to the *other* live Sessions of the user — the submitter's
own session receives its own push. -/
theorem C4_counterexample_submitter_receives_own_push :
    c4ownSession.sendQueue = [] ∧
    heapLookup (PostSyncDataHandler c4inp c4db c4st).st.heap 0 =
      some { c4ownSession with sendQueue := [launchDataOfReq c4req 100] } := by
  decide

/-- Witness for C4: on the concrete push, the handler answers 200, writes
the row keyed by the authenticated user, and session 0 receives the
snapshot. -/
theorem C4_post_persists_then_broadcasts_witness :
    (PostSyncDataHandler c4inp c4db c4st).resp = PostResp.okMessage ∧
    heapLookup (PostSyncDataHandler c4inp c4db c4st).st.heap 0 =
      some { c4ownSession with sendQueue := [launchDataOfReq c4req 100] } := by
  obtain ⟨hrun, henq⟩ :=
    C4_post_persists_then_broadcasts c4inp c4db c4st c4req 100 rfl rfl rfl
  constructor
  · rw [hrun]
  · have h := henq [0] 0 c4ownSession rfl (by decide) (by decide) (by decide) rfl (by decide)
    simpa using h

/-- C6: when the persistence `UPDATE` fails, the handler answers the
submitter with a failure status and nothing else happens: the database
value, the registry and every session's queue are left exactly as they
were, no teardown is scheduled and no broadcast occurs. -/
theorem C6_persistence_failure_no_broadcast (inp : PostInput) (db : Db) (st : SrvState)
    (req : PostReq) (t : Time) :
    inp.body = some req → inp.timeParse req.lastLaunch = some t →
    inp.dbUpdateFails = true →
    PostSyncDataHandler inp db st = ⟨.serverError, db, st, [], false⟩ := by
  intro hbody htp hdb
  simp [PostSyncDataHandler, hbody, htp, hdb]

def c6inp : PostInput :=
  { ctxUserID := 7, body := some c4req, timeParse := fun _ => some 100,
    dbUpdateFails := true }

/-- Witness for C6: the concrete failing push answers 500 and leaves
database and sessions untouched, with no scheduled teardowns. -/
theorem C6_persistence_failure_no_broadcast_witness :
    PostSyncDataHandler c6inp c4db c4st =
      ⟨PostResp.serverError, c4db, c4st, [], false⟩ :=
  C6_persistence_failure_no_broadcast c6inp c4db c4st c4req 100 rfl rfl rfl

/-- C10: persistence is keyed solely by the authenticated identity — the
`UPDATE`'s `WHERE` clause uses the context `user_id`, rewriting that row
and no other user's row — while the snapshot that is persisted in its
fields and then broadcast carries the `user_id` taken verbatim from the
request body; so a submitter's own live sessions can receive a snapshot
whose `user_id` differs from the authenticated identity while no other
user's stored row is touched. -/
theorem C10_update_keyed_by_token_broadcast_carries_body_id (inp : PostInput) (db : Db)
    (st : SrvState) (req : PostReq) (t : Time) :
    inp.body = some req → inp.timeParse req.lastLaunch = some t →
    inp.dbUpdateFails = false →
    (launchDataOfReq req t).userID = req.userID ∧
    (∀ uid2, uid2 ≠ inp.ctxUserID →
       dbLookup (PostSyncDataHandler inp db st).db uid2 = dbLookup db uid2) ∧
    (∀ row0, dbLookup db inp.ctxUserID = some row0 →
       dbLookup (PostSyncDataHandler inp db st).db inp.ctxUserID =
         some (rowOfLaunchData (launchDataOfReq req t))) ∧
    (∀ cids cid c, regLookup st.clients inp.ctxUserID = some cids → cids.Nodup →
       (∀ x ∈ cids, openClient st x = true) → cid ∈ cids →
       heapLookup st.heap cid = some c → c.sendQueue.length < c.capacity →
       heapLookup (PostSyncDataHandler inp db st).st.heap cid =
         some { c with sendQueue := c.sendQueue ++ [launchDataOfReq req t] }) := by
  intro hbody htp hdb
  have hrun : PostSyncDataHandler inp db st =
      ⟨.okMessage, dbUpdateRow db inp.ctxUserID (rowOfLaunchData (launchDataOfReq req t)),
       (broadcastToUser inp.ctxUserID (launchDataOfReq req t) st).st,
       (broadcastToUser inp.ctxUserID (launchDataOfReq req t) st).sched,
       (broadcastToUser inp.ctxUserID (launchDataOfReq req t) st).panicked⟩ := by
    simp [PostSyncDataHandler, hbody, htp, hdb]
  refine ⟨rfl, ?_, ?_, ?_⟩
  · intro uid2 hne
    rw [hrun]
    exact dbLookup_updateRow_ne db inp.ctxUserID uid2 _ hne
  · intro row0 hrow
    rw [hrun]
    exact dbLookup_updateRow_self db inp.ctxUserID _ row0 hrow
  · intro cids cid c hsome hnd hall hmem hl hsp
    rw [hrun]
    have hbt : broadcastToUser inp.ctxUserID (launchDataOfReq req t) st =
        broadcastGo (launchDataOfReq req t) cids st [] := by
      simp [broadcastToUser, hsome]
    rw [hbt]
    exact broadcastGo_space_enqueued (launchDataOfReq req t) cids st [] cid c hnd hmem hl hall hsp

/-- A push whose body claims user 99 while the bearer token authenticates
user 7. -/
def c10req : PostReq :=
  { userID := 99, total := 6, yearData := [("2024", 6)], monthData := [("2024-1", 6)],
    dayData := [("2024-1-1", 6)], lastLaunch := "2024-01-02T00:00:00Z" }

def c10inp : PostInput :=
  { ctxUserID := 7, body := some c10req, timeParse := fun _ => some 200,
    dbUpdateFails := false }

def c10row7 : DbRow :=
  { total := 5, yearData := [("2024", 5)], monthData := [("2024-1", 5)],
    dayData := [("2024-1-1", 5)], lastLaunch := some 50 }

def c10row8 : DbRow :=
  { total := 9, yearData := [("2023", 9)], monthData := [("2023-5", 9)],
    dayData := [("2023-5-5", 9)], lastLaunch := some 40 }

def c10db : Db := [(7, c10row7), (8, c10row8)]

def c10st : SrvState := { clients := [(7, [0])], heap := [(0, c4ownSession)] }

/-- Witness for C10: with body user id 99 under token user 7, user 8's
row is untouched, user 7's row now holds the pushed fields, and user 7's
live session received a snapshot whose user id is 99. -/
theorem C10_update_keyed_by_token_broadcast_carries_body_id_witness :
    (launchDataOfReq c10req 200).userID = 99 ∧
    dbLookup (PostSyncDataHandler c10inp c10db c10st).db 8 = some c10row8 ∧
    dbLookup (PostSyncDataHandler c10inp c10db c10st).db 7 =
      some (rowOfLaunchData (launchDataOfReq c10req 200)) ∧
    heapLookup (PostSyncDataHandler c10inp c10db c10st).st.heap 0 =
      some { c4ownSession with sendQueue := [launchDataOfReq c10req 200] } := by
  obtain ⟨h1, h2, h3, h4⟩ :=
    C10_update_keyed_by_token_broadcast_carries_body_id c10inp c10db c10st c10req 200
      rfl rfl rfl
  refine ⟨h1, h2 8 (by decide), h3 c10row7 rfl, ?_⟩
  have h5 := h4 [0] 0 c4ownSession rfl (by decide) (by decide) (by decide) rfl (by decide)
  simpa using h5

/-- C7: an authenticated pull by a user with no stored snapshot makes the
server insert the default zero-valued row (total 0, empty maps, NULL
last-launch) and answer 200 with the zero-valued snapshot (zero
timestamp on the wire); a user with a stored row gets exactly the stored
contents back. -/
theorem C7_pull_creates_default_then_returns (inp : GetInput) (db : Db) :
    inp.queryFails = false →
    ((dbLookup db inp.ctxUserID = none → inp.insertFails = false →
      GetSyncDataHandler inp db =
        (.ok { userID := 0, total := 0, yearData := [], monthData := [], dayData := [],
               lastLaunch := timeZero },
         dbInsertRow db inp.ctxUserID
           { total := 0, yearData := [], monthData := [], dayData := [],
             lastLaunch := none })) ∧
     (∀ row, dbLookup db inp.ctxUserID = some row →
      GetSyncDataHandler inp db =
        (.ok { userID := 0, total := row.total, yearData := row.yearData,
               monthData := row.monthData, dayData := row.dayData,
               lastLaunch := row.lastLaunch.getD timeZero }, db))) := by
  intro hq
  constructor
  · intro hnone hins
    simp [GetSyncDataHandler, hq, hnone, hins]
  · intro row hrow
    simp [GetSyncDataHandler, hq, hrow]

def c7inp : GetInput := { ctxUserID := 3, queryFails := false, insertFails := false }

def c7row : DbRow :=
  { total := 5, yearData := [("2024", 5)], monthData := [("2024-1", 5)],
    dayData := [("2024-1-1", 5)], lastLaunch := some 50 }

/-- Witness for C7: a first pull against an empty store creates the
default NULL-timestamp row for user 3 and answers the zero snapshot; a
pull with a stored row answers the stored contents. -/
theorem C7_pull_creates_default_then_returns_witness :
    GetSyncDataHandler c7inp [] =
      (.ok { userID := 0, total := 0, yearData := [], monthData := [], dayData := [],
             lastLaunch := timeZero },
       [(3, { total := 0, yearData := [], monthData := [], dayData := [],
              lastLaunch := none })]) ∧
    GetSyncDataHandler c7inp [(3, c7row)] =
      (.ok { userID := 0, total := 5, yearData := [("2024", 5)],
             monthData := [("2024-1", 5)], dayData := [("2024-1-1", 5)],
             lastLaunch := 50 }, [(3, c7row)]) := by
  constructor
  · have h := (C7_pull_creates_default_then_returns c7inp [] rfl).1 rfl rfl
    simpa using h
  · have h := (C7_pull_creates_default_then_returns c7inp [(3, c7row)] rfl).2 c7row rfl
    simpa [c7row] using h

/-- C9: whatever the database holds and whichever branch the pull handler
takes, a 200 response carries `user_id = 0` — the handler never copies
the authenticated identity or the row key into the `UserID` field it
serializes. -/
theorem C9_pull_userid_always_zero (inp : GetInput) (db : Db) (r : SnapshotResp) (db2 : Db) :
    GetSyncDataHandler inp db = (.ok r, db2) → r.userID = 0 := by
  intro h
  unfold GetSyncDataHandler at h
  split at h
  · simp at h
  · split at h
    · split at h
      · simp at h
      · rw [Prod.mk.injEq] at h
        obtain ⟨h1, _⟩ := h
        injection h1 with h1
        rw [← h1]
    · rw [Prod.mk.injEq] at h
      obtain ⟨h1, _⟩ := h
      injection h1 with h1
      rw [← h1]

def c9resp : SnapshotResp :=
  { userID := 0, total := 5, yearData := [("2024", 5)], monthData := [("2024-1", 5)],
    dayData := [("2024-1-1", 5)], lastLaunch := 50 }

/-- Witness for C9: the concrete pull of user 3's stored row returns a
snapshot whose user id field is 0, not 3. -/
theorem C9_pull_userid_always_zero_witness : c9resp.userID = 0 :=
  C9_pull_userid_always_zero c7inp [(3, c7row)] c9resp [(3, c7row)] (by decide)
